import Mathlib

/-!
Shallow embedding of the face-orientation heuristic of `video_editor/face_search.py`.

The face detector (`cv2.CascadeClassifier.detectMultiScale`) is an external,
opaque collaborator: a frame is therefore modelled by its detector response at
each rotation hypothesis, i.e. as a function from a rotation angle to the list
of face rectangles the detector reports on the frame rotated by that angle.
Python float arithmetic on the small exact quantities involved (halves, thirds,
frame averages) is modelled by exact rational arithmetic, and Python's `round`
(round-half-to-even on these exact values) by `pyRound` below.
-/

/-- An axis-aligned face rectangle `(x, y, w, h)` as returned by the detector. -/
structure FaceRegion where
  x : Int
  y : Int
  w : Int
  h : Int
deriving DecidableEq, Repr

/-- A decoded frame, abstracted by the detector response at each rotation angle:
`f r` is the list of faces the detector reports on the frame rotated by `r`
(rotation by 0 is the identity; `cv2.rotate`, the grayscale conversion and
`detectMultiScale` with scaleFactor 1.2, minNeighbors 10 are folded into this
opaque response, as the spec treats the detector as an external capability). -/
def Frame : Type := Int → List FaceRegion

/-- A video, abstracted as a partial map from a read position (the value last
given to `CAP_PROP_POS_FRAMES`, a rational since `fps` is fractional) to the
frame decoded there; `none` models an unsuccessful `capture.read()`. -/
def Clip : Type := ℚ → Option Frame

/-- The video metadata fields used by `get_average_faces_position_in_clip`. -/
structure Metadata where
  width : Int
  height : Int
  fps : ℚ

/-- Python's `round` on the exact rational value: round half to even. -/
def pyRound (q : ℚ) : Int :=
  if q - ⌊q⌋ < 1/2 then ⌊q⌋
  else if q - ⌊q⌋ > 1/2 then ⌊q⌋ + 1
  else if ⌊q⌋ % 2 = 0 then ⌊q⌋ else ⌊q⌋ + 1

/-- One step of `rotates.append(rotates.pop(0))`: move the head to the back. -/
def popAppend (l : List Int) : List Int :=
  match l with
  | [] => []
  | a :: rest => rest ++ [a]

/-- Python's `list.index`: the index of the first occurrence, `none` when the
element is absent (where `list.index` raises ValueError). -/
def list_index (x : Int) : List Int → Option Nat
  | [] => none
  | a :: rest => if a = x then some 0 else (list_index x rest).map (· + 1)

/-- `__rotation_generator(current_rotate)` (face_search.py lines 18-33): the
list of angles the generator yields, in order.  `rotates = [0, 90, 270, 180]`;
`i = rotates.index(current_rotate)` raises ValueError when absent (modelled by
`none`); the head is moved to the back `i` times and the list is yielded. -/
def rotation_generator (current_rotate : Int) : Option (List Int) :=
  let rotates : List Int := [0, 90, 270, 180]
  match list_index current_rotate rotates with
  | none => none
  | some i => some (popAppend^[i] rotates)

/-- The canonical rotation angles, in the insertion order of the `faces`
dictionary of `get_average_faces_position_in_clip` (lines 46-51). -/
def rotation_keys : List Int := [0, 90, 180, 270]

/-- The center abscissa `face[0] + face[2] / 2` of a detected face. -/
def face_center_x (f : FaceRegion) : ℚ := (f.x : ℚ) + (f.w : ℚ) / 2

/-- The center ordinate `face[1] + face[3] / 2` of a detected face. -/
def face_center_y (f : FaceRegion) : ℚ := (f.y : ℚ) + (f.h : ℚ) / 2

/-- The value `get_average_face_position_in_image` returns once a rotation with
a non-empty detection list is found (lines 129-138): the rounded mean of the
face centers, paired with that rotation. -/
def faces_average (faces_in_frame : List FaceRegion) (current_rotation : Int) :
    Int × Int × Int :=
  let average_x : ℚ := (faces_in_frame.map face_center_x).sum
  let average_y : ℚ := (faces_in_frame.map face_center_y).sum
  let face_counter : ℚ := (faces_in_frame.length : ℚ)
  (pyRound (average_x / face_counter), pyRound (average_y / face_counter),
   current_rotation)

/-- The recursive core of `get_average_face_position_in_image` (lines 122-138),
driven by the list of angles the rotation generator still has to yield.  The
second component counts detector invocations.  An empty list is the
StopIteration case (line 119-121): the frame yields no face. -/
def locate_aux (image : Frame) : List Int → Option (Int × Int × Int) × Nat
  | [] => (none, 0)
  | current_rotation :: rest =>
    let faces_in_frame := image current_rotation
    if faces_in_frame.length = 0 then
      let p := locate_aux image rest
      (p.1, p.2 + 1)
    else
      (some (faces_average faces_in_frame current_rotation), 1)

/-- `get_average_face_position_in_image(image, rotation)` for an integer
`rotation` argument (lines 102-138).  The generator is built from `rotation`;
a ValueError raised by `rotates.index` propagates (it is not the caught
StopIteration), modelled by `Except.error`. -/
def get_average_face_position_in_image (image : Frame) (rotation : Int) :
    Except String (Option (Int × Int × Int)) :=
  match rotation_generator rotation with
  | none => Except.error "ValueError"
  | some seq => Except.ok (locate_aux image seq).1

/-- The mutable state of the sampling loop of
`get_average_faces_position_in_clip` (lines 52-67).  `pos` is the current value
of `CAP_PROP_POS_FRAMES`; `reads` records, in order, the positions at which
`capture.read()` succeeded (the sampled frames); `err` records a propagating
exception from the frame locator (never set when the loop starts at a canonical
rotation, as proved below). -/
@[ext]
structure SampleState where
  pos : ℚ
  frames_counter : Nat
  faces : Int → List (Int × Int)
  rotation : Int
  reads : List ℚ
  err : Bool

/-- The initial loop state: position 0, `frames_counter = 1`, empty observation
lists, `rotation = 0` (lines 46-55). -/
def init_state : SampleState :=
  { pos := 0
    frames_counter := 1
    faces := fun _ => []
    rotation := 0
    reads := []
    err := false }

/-- The sampling loop of `get_average_faces_position_in_clip` (lines 56-67),
with explicit fuel (the loop always terminates in the source because read
positions eventually pass the end of the clip; fuel makes every prefix of the
run observable).  Each iteration: read at `pos` (break on failure), locate
faces starting from the carried `rotation`, on success append the observation
and early-exit when the list passes length 2, otherwise increment
`frames_counter` and seek to `fps * frames_counter`. -/
def run_sampling (clip : Clip) (fps : ℚ) : Nat → SampleState → SampleState
  | 0, s => s
  | fuel + 1, s =>
    match clip s.pos with
    | none => s
    | some image =>
      let s0 : SampleState := { s with reads := s.reads ++ [s.pos] }
      match get_average_face_position_in_image image s0.rotation with
      | Except.error _ => { s0 with err := true }
      | Except.ok none =>
        let c := s0.frames_counter + 1
        run_sampling clip fps fuel { s0 with frames_counter := c, pos := fps * (c : ℚ) }
      | Except.ok (some (x, y, rot)) =>
        let faces1 : Int → List (Int × Int) :=
          fun r => if r = rot then s0.faces r ++ [(x, y)] else s0.faces r
        let s1 : SampleState := { s0 with rotation := rot, faces := faces1 }
        if (faces1 rot).length > 2 then s1
        else
          let c := s1.frames_counter + 1
          run_sampling clip fps fuel { s1 with frames_counter := c, pos := fps * (c : ℚ) }

/-- The majority-rotation selection (lines 68-73): fold over the dictionary
keys in insertion order with a strict `>` comparison, starting from
`max_faces_in_group = 0` and the rotation left by the loop. -/
def pick_rotation (faces : Int → List (Int × Int)) (rotation : Int) : Int :=
  (rotation_keys.foldl
    (fun acc key =>
      if (faces key).length > acc.1 then ((faces key).length, key) else acc)
    (0, rotation)).2

/-- The frame dimensions used for bucketing (lines 74-79): swapped when
`rotation / 90 % 2 == 1` (for the canonical angles this is exact division, so
integer division agrees with Python's float arithmetic here). -/
def clip_dims (width height rotation : Int) : Int × Int :=
  if rotation / 90 % 2 = 1 then (height, width) else (width, height)

/-- The 3-way bucketing thresholds (lines 80-81):
`((w/3, 2w/3, w), (h/3, 2h/3, h))` in exact rationals. -/
def bucket_lines (clip_w clip_h : Int) : (ℚ × ℚ × ℚ) × (ℚ × ℚ × ℚ) :=
  (((clip_w : ℚ) / 3, (clip_w : ℚ) * 2 / 3, (clip_w : ℚ)),
   ((clip_h : ℚ) / 3, (clip_h : ℚ) * 2 / 3, (clip_h : ℚ)))

/-- The inner bucketing loop for one coordinate (lines 86-96): the first
1-based index whose threshold is `≥ v`, and the untouched initial value 0 when
no threshold matches. -/
def bucket_index (v : ℚ) (lines : ℚ × ℚ × ℚ) : Nat :=
  if v ≤ lines.1 then 1
  else if v ≤ lines.2.1 then 2
  else if v ≤ lines.2.2 then 3
  else 0

/-- The averaging phase (lines 80-100): bucket every observation of the winning
rotation, sum the bucket indices and divide by the number of observations.
With zero observations the source raises an unhandled ZeroDivisionError,
modelled by `Except.error`. -/
def bucket_phase (width height rotation : Int) (obs : List (Int × Int)) :
    Except String (Int × Int × Int) :=
  let d := clip_dims width height rotation
  let lines := bucket_lines d.1 d.2
  let acc : Nat × Nat × Nat := obs.foldl
    (fun a face =>
      (a.1 + bucket_index (face.1 : ℚ) lines.1,
       a.2.1 + bucket_index (face.2 : ℚ) lines.2,
       a.2.2 + 1))
    (0, 0, 0)
  if acc.2.2 = 0 then Except.error "ZeroDivisionError"
  else Except.ok
    (pyRound ((acc.1 : ℚ) / (acc.2.2 : ℚ)),
     pyRound ((acc.2.1 : ℚ) / (acc.2.2 : ℚ)),
     rotation)

/-- `get_average_faces_position_in_clip(path)` (lines 35-100), with the clip
and its metadata passed explicitly (the source obtains them from the path) and
explicit loop fuel.  Sampling, majority-rotation selection, then bucketing. -/
def get_average_faces_position_in_clip (clip : Clip) (metadata : Metadata)
    (fuel : Nat) : Except String (Int × Int × Int) :=
  let s := run_sampling clip metadata.fps fuel init_state
  if s.err then Except.error "ValueError"
  else
    let rotation := pick_rotation s.faces s.rotation
    bucket_phase metadata.width metadata.height rotation (s.faces rotation)

/-- The property C1 ascribes to the selected rotation: the first angle in the
order 0, 90, 180, 270 whose observation list attains the maximum length (a
later angle wins only by a strictly greater count). -/
def is_first_max (faces : Int → List (Int × Int)) (rot : Int) : Prop :=
  (rot = 0 ∧ (faces 90).length ≤ (faces 0).length ∧
    (faces 180).length ≤ (faces 0).length ∧ (faces 270).length ≤ (faces 0).length) ∨
  (rot = 90 ∧ (faces 0).length < (faces 90).length ∧
    (faces 180).length ≤ (faces 90).length ∧ (faces 270).length ≤ (faces 90).length) ∨
  (rot = 180 ∧ (faces 0).length < (faces 180).length ∧
    (faces 90).length < (faces 180).length ∧ (faces 270).length ≤ (faces 180).length) ∨
  (rot = 270 ∧ (faces 0).length < (faces 270).length ∧
    (faces 90).length < (faces 270).length ∧ (faces 180).length < (faces 270).length)

/-! ## Rotation Hypothesis Generator -/

/-- Case analysis of the rotation generator on the four canonical angles:
the yielded sequence is the base ordering cyclically rotated so that the
requested angle comes first. -/
theorem rotation_generator_spec (r0 : Int) (h : r0 ∈ rotation_keys) :
    ∃ seq : List Int,
      rotation_generator r0 = some seq ∧ seq.length = 4 ∧
      seq.head? = some r0 ∧ seq.Perm rotation_keys ∧
      seq = ([0, 90, 270, 180] : List Int).rotate
              (([0, 90, 270, 180] : List Int).indexOf r0) ∧
      seq[4]? = none := by
  fin_cases h
  · exact ⟨[0, 90, 270, 180], by decide⟩
  · exact ⟨[90, 270, 180, 0], by decide⟩
  · exact ⟨[180, 0, 90, 270], by decide⟩
  · exact ⟨[270, 180, 0, 90], by decide⟩

/-- Claim C2: for every starting angle in {0, 90, 180, 270} the generator
yields exactly 4 angles, a permutation of the canonical set, with the starting
angle first, in the order obtained by cyclically rotating the base ordering
[0, 90, 270, 180] until the starting angle is first; a fifth draw yields
end-of-sequence (`seq[4]? = none`), not an error. -/
theorem rotation_generator_valid (r0 : Int) (h : r0 ∈ rotation_keys) :
    ∃ seq : List Int,
      rotation_generator r0 = some seq ∧ seq.length = 4 ∧
      seq.head? = some r0 ∧ seq.Perm rotation_keys ∧
      seq = ([0, 90, 270, 180] : List Int).rotate
              (([0, 90, 270, 180] : List Int).indexOf r0) ∧
      seq[4]? = none :=
  rotation_generator_spec r0 h

/-- Witness for C2 at the concrete starting angle 90. -/
theorem rotation_generator_valid_witness :
    ∃ seq : List Int,
      rotation_generator 90 = some seq ∧ seq.length = 4 ∧
      seq.head? = some (90 : Int) ∧ seq.Perm rotation_keys ∧
      seq = ([0, 90, 270, 180] : List Int).rotate
              (([0, 90, 270, 180] : List Int).indexOf 90) ∧
      seq[4]? = none :=
  rotation_generator_valid 90 (by decide)

/-- Claim C9: a starting angle outside {0, 90, 180, 270} makes the generator
fail (ValueError from `rotates.index`) producing no angles, and the frame
locator propagates that failure for such an integer start angle. -/
theorem rotation_generator_invalid (r0 : Int) (h : r0 ∉ rotation_keys) :
    rotation_generator r0 = none ∧
    ∀ image : Frame,
      get_average_face_position_in_image image r0 = Except.error "ValueError" := by
  have hne : r0 ≠ 0 ∧ r0 ≠ 90 ∧ r0 ≠ 180 ∧ r0 ≠ 270 := by
    simp only [rotation_keys, List.mem_cons, List.not_mem_nil, or_false] at h
    push_neg at h
    exact h
  obtain ⟨h0, h90, h180, h270⟩ := hne
  have hgen : rotation_generator r0 = none := by
    simp [rotation_generator, list_index, Ne.symm h0, Ne.symm h90,
      Ne.symm h180, Ne.symm h270]
  refine ⟨hgen, fun image => ?_⟩
  simp [get_average_face_position_in_image, hgen]

/-- Witness for C9 at the concrete invalid angle 45. -/
theorem rotation_generator_invalid_witness :
    rotation_generator 45 = none ∧
    get_average_face_position_in_image (fun _ => []) 45 =
      Except.error "ValueError" :=
  ⟨(rotation_generator_invalid 45 (by decide)).1,
   (rotation_generator_invalid 45 (by decide)).2 (fun _ => [])⟩

/-! ## Frame Face Locator -/

/-- The locator core reports no face exactly when the detector response is
empty at every angle of the hypothesis list. -/
theorem locate_aux_none_iff (image : Frame) (seq : List Int) :
    (locate_aux image seq).1 = none ↔ ∀ r ∈ seq, image r = [] := by
  induction seq with
  | nil => simp [locate_aux]
  | cons r rest ih =>
    by_cases hr : (image r).length = 0
    · have hr' : image r = [] := List.length_eq_zero.mp hr
      simp [locate_aux, hr, hr', ih]
    · have hr' : image r ≠ [] := fun he => hr (by simp [he])
      simp [locate_aux, hr, hr']

/-- The locator core invokes the detector at most once per hypothesis. -/
theorem locate_aux_calls_le (image : Frame) (seq : List Int) :
    (locate_aux image seq).2 ≤ seq.length := by
  induction seq with
  | nil => simp [locate_aux]
  | cons r rest ih =>
    by_cases hr : (image r).length = 0
    · simpa [locate_aux, hr] using ih
    · simp [locate_aux, hr]

/-- A universally quantified property transfers along a permutation of the
hypothesis list. -/
theorem forall_mem_of_perm {seq keys : List Int} (hp : seq.Perm keys)
    (P : Int → Prop) : (∀ r ∈ seq, P r) ↔ ∀ r ∈ keys, P r :=
  ⟨fun h r hr => h r (hp.mem_iff.mpr hr), fun h r hr => h r (hp.mem_iff.mp hr)⟩

/-- Claim C3: for a valid integer start angle, the frame locator returns
"no face" exactly when the detector reports zero faces at each of the 4
rotation hypotheses, and the recursion makes at most 4 detector invocations. -/
theorem get_average_face_position_none_iff (image : Frame) (r0 : Int)
    (h : r0 ∈ rotation_keys) :
    (get_average_face_position_in_image image r0 = Except.ok none ↔
      ∀ r ∈ rotation_keys, image r = []) ∧
    ∀ seq, rotation_generator r0 = some seq → (locate_aux image seq).2 ≤ 4 := by
  obtain ⟨seq, hgen, hlen, _, hperm, _, _⟩ := rotation_generator_spec r0 h
  constructor
  · rw [get_average_face_position_in_image, hgen]
    simp only [Except.ok.injEq]
    rw [locate_aux_none_iff]
    exact forall_mem_of_perm hperm _
  · intro seq' hgen'
    rw [hgen, Option.some.injEq] at hgen'
    subst hgen'
    simpa [hlen] using locate_aux_calls_le image seq

/-- Witness for C3: a frame with no detectable face at any angle, start 0. -/
theorem get_average_face_position_none_iff_witness :
    (get_average_face_position_in_image (fun _ => []) 0 = Except.ok none ↔
      ∀ r ∈ rotation_keys, (fun _ => ([] : List FaceRegion)) r = []) ∧
    ∀ seq, rotation_generator 0 = some seq →
      (locate_aux (fun _ => []) seq).2 ≤ 4 :=
  get_average_face_position_none_iff (fun _ => []) 0 (by decide)

/-- Claim C4: whenever the detector reports at least one face at the current
rotation hypothesis, the locator returns the rounded mean of the face-region
centers `(x + w/2, y + h/2)` together with that rotation; in particular one
face with region (10, 20, 30, 40) at rotation 0 gives (25, 40, 0). -/
theorem locate_first_hit (image : Frame) (r : Int) (rest : List Int)
    (h : image r ≠ []) :
    (locate_aux image (r :: rest)).1 =
      some (pyRound (((image r).map face_center_x).sum / ((image r).length : ℚ)),
            pyRound (((image r).map face_center_y).sum / ((image r).length : ℚ)),
            r) ∧
    get_average_face_position_in_image
        (fun rot => if rot = 0 then [⟨10, 20, 30, 40⟩] else []) 0 =
      Except.ok (some (25, 40, 0)) := by
  constructor
  · have hl : ¬ (image r).length = 0 := by
      simpa [List.length_eq_zero] using h
    simp [locate_aux, hl, faces_average]
  · have hgen : rotation_generator 0 = some [0, 90, 270, 180] := by decide
    rw [get_average_face_position_in_image, hgen]
    simp only [locate_aux, faces_average, face_center_x, face_center_y]
    norm_num [pyRound, face_center_x, face_center_y]

/-- Witness for C4: one face with region (0, 0, 2, 2) at rotation 90. -/
theorem locate_first_hit_witness :
    (locate_aux (fun rot => if rot = 90 then [⟨0, 0, 2, 2⟩] else []) [90]).1 =
      some (pyRound ((((fun rot => if rot = (90 : Int) then [(⟨0, 0, 2, 2⟩ : FaceRegion)] else []) 90).map face_center_x).sum /
              (((fun rot => if rot = (90 : Int) then [(⟨0, 0, 2, 2⟩ : FaceRegion)] else []) 90).length : ℚ)),
            pyRound ((((fun rot => if rot = (90 : Int) then [(⟨0, 0, 2, 2⟩ : FaceRegion)] else []) 90).map face_center_y).sum /
              (((fun rot => if rot = (90 : Int) then [(⟨0, 0, 2, 2⟩ : FaceRegion)] else []) 90).length : ℚ)),
            90) ∧
    get_average_face_position_in_image
        (fun rot => if rot = 0 then [⟨10, 20, 30, 40⟩] else []) 0 =
      Except.ok (some (25, 40, 0)) :=
  locate_first_hit (fun rot => if rot = 90 then [⟨0, 0, 2, 2⟩] else []) 90 []
    (by decide)

/-! ## Clip Orientation Estimator: sampling-loop invariants -/

/-- The rotation returned by the locator core is one of the hypotheses. -/
theorem locate_aux_some_mem (image : Frame) :
    ∀ (seq : List Int) (x y rot : Int),
      (locate_aux image seq).1 = some (x, y, rot) → rot ∈ seq := by
  intro seq
  induction seq with
  | nil => intro x y rot h; simp [locate_aux] at h
  | cons r rest ih =>
    intro x y rot h
    by_cases hr : (image r).length = 0
    · simp only [locate_aux, if_pos hr] at h
      exact List.mem_cons_of_mem _ (ih x y rot h)
    · simp only [locate_aux, if_neg hr, faces_average, Option.some.injEq,
        Prod.mk.injEq] at h
      obtain ⟨-, -, hrot⟩ := h
      rw [← hrot]
      exact List.mem_cons_self r rest
  
/-- At a canonical start angle the locator never raises, and any rotation it
returns is again canonical. -/
theorem get_average_face_position_ok (image : Frame) (r0 : Int)
    (h : r0 ∈ rotation_keys) :
    ∃ res, get_average_face_position_in_image image r0 = Except.ok res ∧
      ∀ x y rot, res = some (x, y, rot) → rot ∈ rotation_keys := by
  obtain ⟨seq, hgen, -, -, hperm, -, -⟩ := rotation_generator_spec r0 h
  refine ⟨(locate_aux image seq).1, ?_, ?_⟩
  · rw [get_average_face_position_in_image, hgen]
  · intro x y rot hres
    exact hperm.mem_iff.mp (locate_aux_some_mem image seq x y rot hres)

/-- Loop invariant: starting from observation lists of length at most 2 (the
loop-head invariant enforced by the early exit), every observation list stays
at length at most 3 after any number of further iterations. -/
theorem run_sampling_faces_le (clip : Clip) (fps : ℚ) :
    ∀ (fuel : Nat) (s : SampleState),
      (∀ a, (s.faces a).length ≤ 2) →
      ∀ a, ((run_sampling clip fps fuel s).faces a).length ≤ 3 := by
  intro fuel
  induction fuel with
  | zero =>
    intro s hs a
    exact le_trans (hs a) (by norm_num)
  | succ fuel ih =>
    intro s hs a
    rw [run_sampling]
    cases hclip : clip s.pos with
    | none => exact le_trans (hs a) (by norm_num)
    | some image =>
      simp only
      cases hloc : get_average_face_position_in_image image s.rotation with
      | error e =>
        simp only
        exact le_trans (hs a) (by norm_num)
      | ok res =>
        cases res with
        | none =>
          simp only
          refine ih _ ?_ a
          intro b
          exact hs b
        | some xyr =>
          obtain ⟨x, y, rot⟩ := xyr
          simp only [if_pos rfl, eq_self_iff_true, if_true]
          by_cases hbig : (s.faces rot ++ [(x, y)]).length > 2
          · rw [if_pos hbig]
            simp only
            by_cases ha : a = rot
            · subst ha
              simp only [eq_self_iff_true, if_true, List.length_append,
                List.length_singleton]
              have := hs a
              omega
            · simp only [if_neg ha]
              exact le_trans (hs a) (by norm_num)
          · rw [if_neg hbig]
            refine ih _ ?_ a
            intro b
            show (if b = rot then s.faces b ++ [(x, y)] else s.faces b).length ≤ 2
            by_cases hb : b = rot
            · subst hb
              rw [if_pos rfl]
              omega
            · rw [if_neg hb]
              exact hs b

/-- Well-formedness of the sampling loop: from a canonical carried rotation and
no pending error, the loop keeps the carried rotation canonical and never sets
the error flag (the locator cannot raise ValueError at a canonical angle). -/
theorem run_sampling_wf (clip : Clip) (fps : ℚ) :
    ∀ (fuel : Nat) (s : SampleState),
      s.rotation ∈ rotation_keys → s.err = false →
      (run_sampling clip fps fuel s).rotation ∈ rotation_keys ∧
      (run_sampling clip fps fuel s).err = false := by
  intro fuel
  induction fuel with
  | zero => intro s h1 h2; exact ⟨h1, h2⟩
  | succ fuel ih =>
    intro s h1 h2
    rw [run_sampling]
    cases hclip : clip s.pos with
    | none => exact ⟨h1, h2⟩
    | some image =>
      simp only
      obtain ⟨res, hok, hmem⟩ := get_average_face_position_ok image s.rotation h1
      rw [hok]
      cases res with
      | none =>
        simp only
        refine ih _ ?_ ?_
        · exact h1
        · exact h2
      | some xyr =>
        obtain ⟨x, y, rot⟩ := xyr
        have hrot : rot ∈ rotation_keys := hmem x y rot rfl
        simp only [eq_self_iff_true, if_true]
        by_cases hbig : (s.faces rot ++ [(x, y)]).length > 2
        · rw [if_pos hbig]
          exact ⟨hrot, h2⟩
        · rw [if_neg hbig]
          refine ih _ ?_ ?_
          · exact hrot
          · exact h2

/-- Characterization of the read-position trace: the first successful read is
at position 0, and the i-th successful read (0-based, for i at least 1) is at
position `fps * (i + 1)` -- the seek happens after `frames_counter` is
incremented, so the counter is already at `i + 1` for the i-th re-read. -/
def reads_spec (fps : ℚ) (l : List ℚ) : Prop :=
  ∀ i q, l.get? i = some q →
    (i = 0 ∧ q = 0) ∨ (1 ≤ i ∧ q = fps * ((i + 1 : ℕ) : ℚ))

/-- Appending the current position preserves the trace characterization when
the position is linked to the number of past reads. -/
theorem reads_spec_append (fps : ℚ) (l : List ℚ) (p : ℚ)
    (h : reads_spec fps l)
    (hp : p = if l.length = 0 then 0 else fps * ((l.length + 1 : ℕ) : ℚ)) :
    reads_spec fps (l ++ [p]) := by
  intro i q hi
  rcases lt_or_ge i l.length with hlt | hge
  · rw [List.get?_append hlt] at hi
    exact h i q hi
  · rw [List.get?_append_right hge] at hi
    have hi0 : i - l.length = 0 := by
      by_contra hne
      have h1 : 1 ≤ i - l.length := Nat.one_le_iff_ne_zero.mpr hne
      have : ([p].get? (i - l.length)) = none := by
        apply List.get?_eq_none.mpr
        simpa using h1
      rw [this] at hi
      exact Option.noConfusion hi
    rw [hi0] at hi
    have hq : q = p := by
      simpa using hi.symm
    have hieq : i = l.length := by omega
    subst hq
    subst hieq
    rcases Nat.eq_zero_or_pos l.length with hz | hpos
    · left
      rw [hz] at hp ⊢
      exact ⟨rfl, by simpa using hp⟩
    · right
      refine ⟨hpos, ?_⟩
      rw [hp, if_neg (by omega)]
  
/-- The sampling loop preserves the trace characterization, given the link
between position, counter and reads performed so far. -/
theorem run_sampling_reads (clip : Clip) (fps : ℚ) :
    ∀ (fuel : Nat) (s : SampleState),
      reads_spec fps s.reads →
      s.frames_counter = s.reads.length + 1 →
      s.pos = (if s.reads.length = 0 then 0
               else fps * ((s.reads.length + 1 : ℕ) : ℚ)) →
      reads_spec fps (run_sampling clip fps fuel s).reads := by
  intro fuel
  induction fuel with
  | zero => intro s h1 _ _; exact h1
  | succ fuel ih =>
    intro s h1 h2 h3
    have hs0 : reads_spec fps (s.reads ++ [s.pos]) :=
      reads_spec_append fps s.reads s.pos h1 h3
    have hlen : (s.reads ++ [s.pos]).length = s.reads.length + 1 := by simp
    rw [run_sampling]
    cases hclip : clip s.pos with
    | none => exact h1
    | some image =>
      simp only
      cases hloc : get_average_face_position_in_image image s.rotation with
      | error e => exact hs0
      | ok res =>
        cases res with
        | none =>
          simp only
          refine ih _ hs0 ?_ ?_
          · show s.frames_counter + 1 = (s.reads ++ [s.pos]).length + 1
            rw [hlen, h2]
          · show fps * ((s.frames_counter + 1 : ℕ) : ℚ) = _
            rw [hlen, h2, if_neg (by omega)]
        | some xyr =>
          obtain ⟨x, y, rot⟩ := xyr
          simp only [eq_self_iff_true, if_true]
          by_cases hbig : (s.faces rot ++ [(x, y)]).length > 2
          · rw [if_pos hbig]
            exact hs0
          · rw [if_neg hbig]
            refine ih _ hs0 ?_ ?_
            · show s.frames_counter + 1 = (s.reads ++ [s.pos]).length + 1
              rw [hlen, h2]
            · show fps * ((s.frames_counter + 1 : ℕ) : ℚ) = _
              rw [hlen, h2, if_neg (by omega)]

/-- Claim C8: at every point of the run (every fuel prefix), no per-angle
observation list holds more than 3 observations: sampling stops as soon as a
list reaches length 3, so in particular the winning rotation never has more
than 3 observations. -/
theorem estimator_observation_bound (clip : Clip) (fps : ℚ) (fuel : Nat)
    (a : Int) :
    ((run_sampling clip fps fuel init_state).faces a).length ≤ 3 :=
  run_sampling_faces_le clip fps fuel init_state
    (fun _ => by simp [init_state]) a

/-- The read-position trace of a full run from the initial state: first read at
position 0, i-th read (0-based, i at least 1) at position `fps * (i + 1)`. -/
theorem run_sampling_reads_init (clip : Clip) (fps : ℚ) (fuel : Nat) :
    reads_spec fps (run_sampling clip fps fuel init_state).reads := by
  apply run_sampling_reads clip fps fuel init_state
  · intro i q hi
    simp [init_state] at hi
  · rfl
  · rfl

/-- Claim C6 (amended): the estimator increments `frames_counter` first and
then seeks to `fps * frames_counter`, so the k-th sampling attempt (k at least
2) reads the frame at index `fps * k` (not `fps * (k - 1)`). -/
theorem run_sampling_read_positions (clip : Clip) (fps : ℚ) (fuel k : Nat)
    (q : ℚ) (hk : 2 ≤ k)
    (h : (run_sampling clip fps fuel init_state).reads.get? (k - 1) = some q) :
    q = fps * (k : ℚ) := by
  rcases run_sampling_reads_init clip fps fuel (k - 1) q h with ⟨h0, -⟩ | ⟨-, hq⟩
  · omega
  · rw [hq]
    congr 1
    have : k - 1 + 1 = k := by omega
    rw [this]

/-! ## Concrete clips used as witnesses and counterexamples -/

/-- A frame with no detectable face at any rotation. -/
def blank_frame : Frame := fun _ => []

/-- A clip decodable at positions below 100, with no detectable faces. -/
def clip_no_faces : Clip := fun p => if p < 100 then some blank_frame else none

/-- A frame with exactly one face, region (10, 20, 30, 40), at rotation 0. -/
def one_face_frame : Frame := fun r => if r = 0 then [⟨10, 20, 30, 40⟩] else []

/-- A clip whose only decodable frame is at position 0, showing one face. -/
def clip_one_face : Clip := fun p => if p = 0 then some one_face_frame else none

/-- The empty clip: no decodable frames at all. -/
def clip_empty : Clip := fun _ => none

/-- The locator finds nothing on the blank frame. -/
theorem locator_blank :
    get_average_face_position_in_image blank_frame 0 = Except.ok none := rfl

/-- The locator on the one-face frame from start angle 0. -/
theorem locator_one_face :
    get_average_face_position_in_image one_face_frame 0 =
      Except.ok (some (25, 40, 0)) := by
  have hgen : rotation_generator 0 = some [0, 90, 270, 180] := by decide
  rw [get_average_face_position_in_image, hgen]
  simp only [locate_aux, one_face_frame, faces_average]
  norm_num [pyRound, face_center_x, face_center_y]

/-- Trace of a run on the no-face clip at fps 30: reads at 0, 60, 90 (the
position 30 is never read). -/
theorem run_no_faces_reads :
    (run_sampling clip_no_faces 30 10 init_state).reads = [0, 60, 90] := by
  have hloc := locator_blank
  norm_num [run_sampling, init_state, clip_no_faces, hloc]

/-- The final loop state of a run on the one-face clip at fps 30. -/
def one_face_final : SampleState :=
  { pos := 60
    frames_counter := 2
    faces := fun r => if r = 0 then [(25, 40)] else []
    rotation := 0
    reads := [0]
    err := false }

/-- Running the sampler on the one-face clip: one successful read at position
0, one failed read at position 60. -/
theorem run_one_face_state :
    run_sampling clip_one_face 30 2 init_state = one_face_final := by
  have hloc := locator_one_face
  have h0 : clip_one_face 0 = some one_face_frame := by norm_num [clip_one_face]
  have h60 : clip_one_face 60 = none := by norm_num [clip_one_face]
  norm_num [run_sampling, init_state, h0, h60, hloc, one_face_final]

/-- Counterexample to C6 as stated: on the no-face clip at fps 30, the second
sampling attempt (k = 2) reads the frame at position 60 = fps * 2, not at
position fps * (2 - 1) = 30, because `frames_counter` is incremented before
the seek, not after. -/
theorem run_sampling_read_positions_cex :
    (run_sampling clip_no_faces 30 10 init_state).reads.get? (2 - 1) =
      some 60 ∧ (60 : ℚ) ≠ 30 * ((2 - 1 : ℕ) : ℚ) := by
  constructor
  · rw [run_no_faces_reads]
    rfl
  · norm_num

/-- Witness for the amended C6 at k = 2 on the no-face clip. -/
theorem run_sampling_read_positions_witness :
    (60 : ℚ) = 30 * ((2 : ℕ) : ℚ) := by
  apply run_sampling_read_positions clip_no_faces 30 10 2 60 (by norm_num)
  rw [run_no_faces_reads]
  rfl

/-! ## Majority-rotation selection -/

/-- With all observation lists empty at the canonical angles, the fold leaves
the loop rotation untouched (no count beats the initial maximum 0). -/
theorem pick_rotation_all_zero (faces : Int → List (Int × Int)) (r0 : Int)
    (h0 : (faces 0).length = 0) (h90 : (faces 90).length = 0)
    (h180 : (faces 180).length = 0) (h270 : (faces 270).length = 0) :
    pick_rotation faces r0 = r0 := by
  simp [pick_rotation, rotation_keys, h0, h90, h180, h270]

/-- As soon as some canonical angle has a non-zero observation count, the fold
returns the first angle, in the order 0, 90, 180, 270, attaining the maximum
count (a later angle is selected only on a strictly greater count). -/
theorem pick_rotation_first_max (faces : Int → List (Int × Int)) (r0 : Int)
    (h : (faces 0).length ≠ 0 ∨ (faces 90).length ≠ 0 ∨
         (faces 180).length ≠ 0 ∨ (faces 270).length ≠ 0) :
    is_first_max faces (pick_rotation faces r0) := by
  simp only [pick_rotation, rotation_keys, List.foldl_cons, List.foldl_nil]
  split_ifs <;> simp_all [is_first_max] <;> omega

/-! ## Bucketing phase -/

/-- The accumulator of the bucketing fold: componentwise sums of the bucket
indices plus the observation count. -/
theorem bucket_fold_spec (lines : (ℚ × ℚ × ℚ) × (ℚ × ℚ × ℚ))
    (obs : List (Int × Int)) :
    ∀ init : Nat × Nat × Nat,
      obs.foldl
        (fun a face =>
          (a.1 + bucket_index (face.1 : ℚ) lines.1,
           a.2.1 + bucket_index (face.2 : ℚ) lines.2,
           a.2.2 + 1)) init =
      (init.1 + (obs.map (fun p => bucket_index (p.1 : ℚ) lines.1)).sum,
       init.2.1 + (obs.map (fun p => bucket_index (p.2 : ℚ) lines.2)).sum,
       init.2.2 + obs.length) := by
  induction obs with
  | nil => intro init; simp
  | cons p rest ih =>
    intro init
    simp only [List.foldl_cons, List.map_cons, List.sum_cons, List.length_cons]
    rw [ih]
    simp only [Prod.mk.injEq]
    refine ⟨by omega, by omega, by omega⟩

/-- A successful bucketing run returns the rotation it was given and can only
happen on a non-empty observation list. -/
theorem bucket_phase_ok (width height rotation : Int) (obs : List (Int × Int))
    (bx bY rot : Int)
    (h : bucket_phase width height rotation obs = Except.ok (bx, bY, rot)) :
    rot = rotation ∧ obs ≠ [] := by
  rw [bucket_phase] at h
  simp only [bucket_fold_spec] at h
  by_cases hn : obs.length = 0
  · rw [if_pos (by omega)] at h
    exact absurd h (by simp)
  · rw [if_neg (by omega)] at h
    simp only [Except.ok.injEq, Prod.mk.injEq] at h
    exact ⟨h.2.2.symm, fun he => hn (by simp [he])⟩

/-- Claim C1: whenever the Clip Orientation Estimator returns a triple, the
returned rotation is the angle whose observation list has the greatest length,
selected by iterating 0, 90, 180, 270 in order with a strict `>` comparison,
so the first angle attaining the maximum wins at a tie. -/
theorem estimator_rotation_first_max (clip : Clip) (metadata : Metadata)
    (fuel : Nat) (bx bY rot : Int)
    (h : get_average_faces_position_in_clip clip metadata fuel =
      Except.ok (bx, bY, rot)) :
    is_first_max (run_sampling clip metadata.fps fuel init_state).faces rot := by
  have hwf := run_sampling_wf clip metadata.fps fuel init_state
    (by decide) rfl
  set s := run_sampling clip metadata.fps fuel init_state with hs
  rw [get_average_faces_position_in_clip] at h
  rw [← hs] at h
  rw [if_neg (by rw [hwf.2]; exact Bool.false_ne_true)] at h
  obtain ⟨hrot, hne⟩ := bucket_phase_ok _ _ _ _ _ _ _ h
  subst hrot
  by_cases hz : (s.faces 0).length ≠ 0 ∨ (s.faces 90).length ≠ 0 ∨
      (s.faces 180).length ≠ 0 ∨ (s.faces 270).length ≠ 0
  · exact pick_rotation_first_max s.faces s.rotation hz
  · push_neg at hz
    obtain ⟨z0, z90, z180, z270⟩ := hz
    exfalso
    rw [pick_rotation_all_zero s.faces s.rotation z0 z90 z180 z270] at hne
    have hmem := hwf.1
    simp only [rotation_keys, List.mem_cons, List.not_mem_nil, or_false]
      at hmem
    rcases hmem with hm | hm | hm | hm <;> rw [hm] at hne
    · exact hne (List.length_eq_zero.mp z0)
    · exact hne (List.length_eq_zero.mp z90)
    · exact hne (List.length_eq_zero.mp z180)
    · exact hne (List.length_eq_zero.mp z270)

/-- Full evaluation of the estimator on the one-face clip: the face center
(25, 40) of a 300x300 clip falls in the top-left bucket. -/
theorem estimator_one_face_eval :
    get_average_faces_position_in_clip clip_one_face ⟨300, 300, 30⟩ 2 =
      Except.ok (1, 1, 0) := by
  rw [get_average_faces_position_in_clip]
  rw [show (⟨300, 300, 30⟩ : Metadata).fps = 30 from rfl, run_one_face_state]
  norm_num [one_face_final, pick_rotation, rotation_keys, bucket_phase,
    clip_dims, bucket_lines, bucket_index, pyRound]

/-- Witness for C1: on the one-face clip the estimator returns rotation 0,
which is the first maximal angle of the accumulated observation lists. -/
theorem estimator_rotation_first_max_witness :
    is_first_max (run_sampling clip_one_face
      (Metadata.mk 300 300 30).fps 2 init_state).faces 0 :=
  estimator_rotation_first_max clip_one_face ⟨300, 300, 30⟩ 2 1 1 0
    estimator_one_face_eval

/-- Claim C5 (the source has no such handling): on a clip with zero decodable
frames -- and in general with zero accumulated observations -- the estimator
reaches the bucket averaging with an observation count of 0 and raises an
unhandled ZeroDivisionError (`average_x / faces_counter` at line 100), for any
metadata and any fuel, instead of reporting a defined error or degenerate
result. -/
theorem estimator_empty_clip_divzero (metadata : Metadata) (fuel : Nat) :
    get_average_faces_position_in_clip clip_empty metadata fuel =
      Except.error "ZeroDivisionError" := by
  have hrun : run_sampling clip_empty metadata.fps fuel init_state =
      init_state := by
    cases fuel <;> rfl
  rw [get_average_faces_position_in_clip, hrun]
  norm_num [init_state, pick_rotation, rotation_keys, bucket_phase]

/-- Claim C7: the bucketing dimensions are swapped exactly for the winning
rotations 90 and 270; with rotation 90 and metadata 1920x1080 the thresholds
are built from the swapped dimensions, linesX from 1080 and linesY from
1920. -/
theorem clip_dims_swap (w h rot : Int) (hrot : rot ∈ rotation_keys) :
    clip_dims w h rot = (if rot = 90 ∨ rot = 270 then (h, w) else (w, h)) ∧
    bucket_lines (clip_dims 1920 1080 90).1 (clip_dims 1920 1080 90).2 =
      ((360, 720, 1080), (640, 1280, 1920)) := by
  constructor
  · fin_cases hrot <;> norm_num [clip_dims]
  · norm_num [clip_dims, bucket_lines]

/-- Witness for C7 at rotation 90, metadata 1920x1080. -/
theorem clip_dims_swap_witness :
    clip_dims 1920 1080 90 =
      (if (90 : Int) = 90 ∨ (90 : Int) = 270 then
        ((1080 : Int), (1920 : Int)) else (1920, 1080)) ∧
    bucket_lines (clip_dims 1920 1080 90).1 (clip_dims 1920 1080 90).2 =
      ((360, 720, 1080), (640, 1280, 1920)) :=
  clip_dims_swap 1920 1080 90 (by decide)

/-- Rounding stays between integer bounds enclosing the argument. -/
theorem pyRound_bounds (q : ℚ) (a b : Int) (ha : (a : ℚ) ≤ q)
    (hb : q ≤ (b : ℚ)) : a ≤ pyRound q ∧ pyRound q ≤ b := by
  have h1 : a ≤ ⌊q⌋ := Int.le_floor.mpr ha
  have h2 : ⌊q⌋ ≤ b := by
    have := Int.floor_le_floor hb
    simpa using this
  have hup : q - ⌊q⌋ ≥ 1/2 → ⌊q⌋ < b := by
    intro hgt
    have hq : (⌊q⌋ : ℚ) < q := by
      have := Int.floor_le q
      nlinarith
    have : (⌊q⌋ : ℚ) < (b : ℚ) := lt_of_lt_of_le hq hb
    exact_mod_cast this
  rw [pyRound]
  split_ifs with hc1 hc2 hc3
  · exact ⟨h1, h2⟩
  · have := hup (le_of_lt hc2)
    constructor <;> omega
  · exact ⟨h1, h2⟩
  · have := hup (by push_neg at hc1; exact hc1)
    constructor <;> omega

/-- A coordinate below the last threshold lands in bucket 1, 2 or 3. -/
theorem bucket_index_range (v l1 l2 l3 : ℚ) (hv : v ≤ l3) :
    1 ≤ bucket_index v (l1, l2, l3) ∧ bucket_index v (l1, l2, l3) ≤ 3 := by
  rw [bucket_index]
  split_ifs with h1 h2
  · exact ⟨le_refl 1, by norm_num⟩
  · exact ⟨by norm_num, by norm_num⟩
  · exact ⟨by norm_num, le_refl 3⟩

/-- A coordinate beyond the last threshold of the computed lines contributes
the untouched default bucket 0 (for a non-negative dimension all three
thresholds are below the coordinate). -/
theorem bucket_index_overflow (cw ch : Int) (v : ℚ) (hcw : 0 ≤ cw)
    (hv : (cw : ℚ) < v) : bucket_index v (bucket_lines cw ch).1 = 0 := by
  have hcw' : (0 : ℚ) ≤ (cw : ℚ) := by exact_mod_cast hcw
  rw [bucket_lines, bucket_index]
  simp only
  rw [if_neg (by push_neg; linarith), if_neg (by push_neg; linarith),
    if_neg (by push_neg; linarith)]

/-- Sums of per-observation buckets all within [1, 3] are within
[count, 3 * count]. -/
theorem sum_buckets_bounds (f : Int × Int → Nat) (obs : List (Int × Int))
    (h : ∀ p ∈ obs, 1 ≤ f p ∧ f p ≤ 3) :
    obs.length ≤ (obs.map f).sum ∧ (obs.map f).sum ≤ 3 * obs.length := by
  induction obs with
  | nil => simp
  | cons p rest ih =>
    have hp := h p (List.mem_cons_self p rest)
    have hr := ih (fun q hq => h q (List.mem_cons_of_mem p hq))
    simp only [List.map_cons, List.sum_cons, List.length_cons]
    omega

/-- The average of naturals within [n, 3n] lies within [1, 3] for n > 0. -/
theorem avg_bounds (t n : Nat) (hn : n ≠ 0) (h1 : n ≤ t) (h3 : t ≤ 3 * n) :
    (1 : ℚ) ≤ (t : ℚ) / (n : ℚ) ∧ (t : ℚ) / (n : ℚ) ≤ 3 := by
  have hn' : (0 : ℚ) < (n : ℚ) := by exact_mod_cast Nat.pos_of_ne_zero hn
  constructor
  · rw [le_div_iff hn', one_mul]
    exact_mod_cast h1
  · rw [div_le_iff hn']
    exact_mod_cast h3

/-- The bucketing phase on a non-empty observation list whose coordinates are
within the (possibly swapped) clip dimensions returns bucket coordinates in
{1, 2, 3}, with the rotation passed through. -/
theorem bucket_phase_range (width height rotation : Int)
    (obs : List (Int × Int)) (hne : obs ≠ [])
    (hb : ∀ p ∈ obs,
      (p.1 : ℚ) ≤ ((clip_dims width height rotation).1 : ℚ) ∧
      (p.2 : ℚ) ≤ ((clip_dims width height rotation).2 : ℚ)) :
    ∃ bx bY : Int,
      bucket_phase width height rotation obs = Except.ok (bx, bY, rotation) ∧
      (bx = 1 ∨ bx = 2 ∨ bx = 3) ∧ (bY = 1 ∨ bY = 2 ∨ bY = 3) := by
  rw [bucket_phase]
  simp only [bucket_fold_spec, Nat.zero_add]
  have hn : obs.length ≠ 0 := fun hz => hne (List.length_eq_zero.mp hz)
  rw [if_neg hn]
  set cw := (clip_dims width height rotation).1 with hcw
  set ch := (clip_dims width height rotation).2 with hch
  have hx : ∀ p ∈ obs,
      1 ≤ bucket_index (p.1 : ℚ) (bucket_lines cw ch).1 ∧
      bucket_index (p.1 : ℚ) (bucket_lines cw ch).1 ≤ 3 := by
    intro p hp
    have := (hb p hp).1
    rw [bucket_lines]
    exact bucket_index_range _ _ _ _ this
  have hy : ∀ p ∈ obs,
      1 ≤ bucket_index (p.2 : ℚ) (bucket_lines cw ch).2 ∧
      bucket_index (p.2 : ℚ) (bucket_lines cw ch).2 ≤ 3 := by
    intro p hp
    have := (hb p hp).2
    rw [bucket_lines]
    exact bucket_index_range _ _ _ _ this
  obtain ⟨hxl, hxu⟩ := sum_buckets_bounds _ obs hx
  obtain ⟨hyl, hyu⟩ := sum_buckets_bounds _ obs hy
  obtain ⟨hax1, hax3⟩ := avg_bounds _ obs.length hn hxl hxu
  obtain ⟨hay1, hay3⟩ := avg_bounds _ obs.length hn hyl hyu
  obtain ⟨hbx1, hbx3⟩ := pyRound_bounds
    (((obs.map (fun p => bucket_index (p.1 : ℚ) (bucket_lines cw ch).1)).sum :
        ℚ) / (obs.length : ℚ)) 1 3
    (by exact_mod_cast hax1) (by exact_mod_cast hax3)
  obtain ⟨hby1, hby3⟩ := pyRound_bounds
    (((obs.map (fun p => bucket_index (p.2 : ℚ) (bucket_lines cw ch).2)).sum :
        ℚ) / (obs.length : ℚ)) 1 3
    (by exact_mod_cast hay1) (by exact_mod_cast hay3)
  refine ⟨_, _, rfl, by omega, by omega⟩

/-- Claim C10: for every run whose winning rotation has a non-empty
observation list with all observations within the (swap-adjusted) bucketing
dimensions, both returned bucket coordinates lie in {1, 2, 3}; and an
observation coordinate beyond the largest threshold is not skipped and does
not raise, but contributes the untouched default bucket value 0. -/
theorem estimator_bucket_range (clip : Clip) (metadata : Metadata)
    (fuel : Nat) (s : SampleState) (rot : Int)
    (hs : s = run_sampling clip metadata.fps fuel init_state)
    (hrot : rot = pick_rotation s.faces s.rotation)
    (hne : s.faces rot ≠ [])
    (hb : ∀ p ∈ s.faces rot,
      (p.1 : ℚ) ≤ ((clip_dims metadata.width metadata.height rot).1 : ℚ) ∧
      (p.2 : ℚ) ≤ ((clip_dims metadata.width metadata.height rot).2 : ℚ)) :
    (∃ bx bY : Int,
      get_average_faces_position_in_clip clip metadata fuel =
        Except.ok (bx, bY, rot) ∧
      (bx = 1 ∨ bx = 2 ∨ bx = 3) ∧ (bY = 1 ∨ bY = 2 ∨ bY = 3)) ∧
    ∀ (cw ch : Int) (v : ℚ), 0 ≤ cw → (cw : ℚ) < v →
      bucket_index v (bucket_lines cw ch).1 = 0 := by
  constructor
  · have hwf := run_sampling_wf clip metadata.fps fuel init_state
      (by decide) rfl
    rw [← hs] at hwf
    obtain ⟨bx, bY, hbp, hbx, hbY⟩ :=
      bucket_phase_range metadata.width metadata.height rot (s.faces rot)
        hne hb
    refine ⟨bx, bY, ?_, hbx, hbY⟩
    rw [get_average_faces_position_in_clip, ← hs,
      if_neg (by rw [hwf.2]; exact Bool.false_ne_true), ← hrot]
    exact hbp
  · intro cw ch v hcw hv
    exact bucket_index_overflow cw ch v hcw hv

/-- The winning rotation of the one-face run is 0. -/
theorem one_face_pick :
    pick_rotation one_face_final.faces one_face_final.rotation = 0 := by
  norm_num [pick_rotation, rotation_keys, one_face_final]

/-- Witness for C10 on the one-face clip with 300x300 metadata. -/
theorem estimator_bucket_range_witness :
    (∃ bx bY : Int,
      get_average_faces_position_in_clip clip_one_face ⟨300, 300, 30⟩ 2 =
        Except.ok (bx, bY, 0) ∧
      (bx = 1 ∨ bx = 2 ∨ bx = 3) ∧ (bY = 1 ∨ bY = 2 ∨ bY = 3)) ∧
    ∀ (cw ch : Int) (v : ℚ), 0 ≤ cw → (cw : ℚ) < v →
      bucket_index v (bucket_lines cw ch).1 = 0 :=
  estimator_bucket_range clip_one_face ⟨300, 300, 30⟩ 2 one_face_final 0
    run_one_face_state.symm one_face_pick.symm
    (by norm_num [one_face_final])
    (by
      intro p hp
      simp [one_face_final] at hp
      subst hp
      norm_num [clip_dims])
